import Mathlib

/-!
# Verification of the narrative motion synchronization engine

Shallow embedding of the scroll-synchronized animation core of the
repository (SceneOrchestrator, pathFinder, motionLogic, the
CanvasRenderer easing table, IframeScrollBridge) together with proofs
settling the frozen specification claims.

JavaScript numbers are modelled by `JSNum`: either an exact rational
(`fin q`, idealizing finite doubles as exact rationals), positive or
negative infinity, or NaN.  Arithmetic follows the IEEE-754 propagation
rules for these values (signed zero and rounding are not modelled; no
claim depends on them).  Quantities that the source only ever derives
from finite values (the progress parameter `t`, timestamps, scroll
percentages, canvas sizes) are modelled directly as rationals or
integers.
-/

/-- A JavaScript number: an exact rational, an infinity, or NaN. -/
inductive JSNum where
  | fin : ℚ → JSNum
  | inf : JSNum
  | ninf : JSNum
  | nan : JSNum
deriving DecidableEq, Repr

namespace JSNum

/-- JavaScript `isNaN` on a number value. -/
def isNaN : JSNum → Bool
  | nan => true
  | _ => false

/-- JavaScript `+` on numbers: NaN propagates, `Infinity + -Infinity` is NaN. -/
def jsAdd : JSNum → JSNum → JSNum
  | nan, _ => nan
  | _, nan => nan
  | fin a, fin b => fin (a + b)
  | inf, ninf => nan
  | ninf, inf => nan
  | inf, _ => inf
  | _, inf => inf
  | ninf, _ => ninf
  | _, ninf => ninf

/-- JavaScript unary minus on numbers. -/
def jsNeg : JSNum → JSNum
  | fin a => fin (-a)
  | inf => ninf
  | ninf => inf
  | nan => nan

/-- JavaScript `-` on numbers (addition of the negation, as in IEEE-754). -/
def jsSub (a b : JSNum) : JSNum := jsAdd a (jsNeg b)

/-- JavaScript `*` on numbers: NaN propagates, `Infinity * 0` is NaN. -/
def jsMul : JSNum → JSNum → JSNum
  | nan, _ => nan
  | _, nan => nan
  | fin a, fin b => fin (a * b)
  | inf, fin b => if 0 < b then inf else if b < 0 then ninf else nan
  | fin a, inf => if 0 < a then inf else if a < 0 then ninf else nan
  | ninf, fin b => if 0 < b then ninf else if b < 0 then inf else nan
  | fin a, ninf => if 0 < a then ninf else if a < 0 then inf else nan
  | inf, inf => inf
  | inf, ninf => ninf
  | ninf, inf => ninf
  | ninf, ninf => inf

/-- JavaScript `Math.min`: NaN if either argument is NaN. -/
def jsMin : JSNum → JSNum → JSNum
  | nan, _ => nan
  | _, nan => nan
  | fin a, fin b => fin (min a b)
  | ninf, _ => ninf
  | _, ninf => ninf
  | inf, b => b
  | a, inf => a

/-- JavaScript `Math.max`: NaN if either argument is NaN. -/
def jsMax : JSNum → JSNum → JSNum
  | nan, _ => nan
  | _, nan => nan
  | fin a, fin b => fin (max a b)
  | inf, _ => inf
  | _, inf => inf
  | ninf, b => b
  | a, ninf => a

end JSNum

/-!
## SceneOrchestrator (src/src/components/SceneOrchestrator.tsx)

The waypoint data model follows `src/src/types/storyboard.ts`
(`ScrollWaypoint { id, scrollPercent, duration, scene }`).  The scene
payload is opaque to the orchestration logic, so it is a type
parameter `σ`.
-/

/-- `ScrollWaypoint` from src/src/types/storyboard.ts: a scroll-activation
window bound to a scene. -/
structure ScrollWaypoint (σ : Type) where
  id : String
  scrollPercent : ℚ
  duration : ℚ
  scene : σ
deriving Repr

/-- The record built by `findActiveWaypoint` in SceneOrchestrator.tsx. -/
structure ActiveWaypoint (σ : Type) where
  waypoint : ScrollWaypoint σ
  activationPercent : ℚ
  deactivationPercent : ℚ
deriving Repr

/-- The loop-body test of `findActiveWaypoint`:
`percent >= activationPercent && percent <= deactivationPercent`. -/
def waypointMatches {σ : Type} (w : ScrollWaypoint σ) (percent : ℚ) : Bool :=
  decide (w.scrollPercent ≤ percent) && decide (percent ≤ w.scrollPercent + w.duration)

/-- `findActiveWaypoint` from SceneOrchestrator.tsx: scan the ordered list,
return the first waypoint whose closed activation interval contains
`percent`, packaged with its interval endpoints; `null` if none matches. -/
def findActiveWaypoint {σ : Type} (waypoints : List (ScrollWaypoint σ)) (percent : ℚ) :
    Option (ActiveWaypoint σ) :=
  (waypoints.find? (fun w => waypointMatches w percent)).map
    (fun w => ⟨w, w.scrollPercent, w.scrollPercent + w.duration⟩)

/-- The id of the waypoint resolved for a given scroll percent
(`newActiveWaypoint?.waypoint.id` in the effect). -/
def resolvedId {σ : Type} (waypoints : List (ScrollWaypoint σ)) (percent : ℚ) :
    Option String :=
  (findActiveWaypoint waypoints percent).map (fun a => a.waypoint.id)

/-- One event delivered to `onActiveSceneChange`: the scene and waypoint id,
or `(null, null)` on deactivation. -/
def EmittedEvent (σ : Type) := Option σ × Option String

/-- The body of the `useEffect` in SceneOrchestrator.tsx for one scroll
update: resolve the active waypoint; if its id differs from the stored
one, store it and emit exactly one event; otherwise do nothing. -/
def orchStep {σ : Type} (waypoints : List (ScrollWaypoint σ))
    (active : Option (ActiveWaypoint σ)) (percent : ℚ) :
    Option (ActiveWaypoint σ) × List (EmittedEvent σ) :=
  let newActive := findActiveWaypoint waypoints percent
  if newActive.map (fun a => a.waypoint.id) ≠ active.map (fun a => a.waypoint.id) then
    (newActive,
      [match newActive with
       | some a => (some a.waypoint.scene, some a.waypoint.id)
       | none => (none, none)])
  else
    (active, [])

/-- Run the orchestrator over a feed of scroll percents, collecting every
emitted event in order. -/
def orchRun {σ : Type} (waypoints : List (ScrollWaypoint σ))
    (active : Option (ActiveWaypoint σ)) : List ℚ → List (EmittedEvent σ)
  | [] => []
  | p :: ps =>
    let r := orchStep waypoints active p
    r.2 ++ orchRun waypoints r.1 ps

/-- Count of adjacent changes in a sequence of resolved ids. -/
def countChanges : List (Option String) → ℕ
  | a :: b :: rest => (if a ≠ b then 1 else 0) + countChanges (b :: rest)
  | _ => 0

/-- The event payload the effect emits for a resolved waypoint: the scene
and id on activation, `(null, null)` on deactivation. -/
def eventFor {σ : Type} : Option (ActiveWaypoint σ) → EmittedEvent σ
  | some a => (some a.waypoint.scene, some a.waypoint.id)
  | none => (none, none)

/-- The waypoint list of the specification scenario:
`[{id:"w1",start:0,duration:30},{id:"w2",start:30,duration:70}]`
(scene payloads are irrelevant to resolution and set to `Unit`). -/
def scenarioWaypoints : List (ScrollWaypoint Unit) :=
  [⟨"w1", 0, 30, ()⟩, ⟨"w2", 30, 70, ()⟩]

/-!
## pathFinder (src/src/utils/pathFinder.ts)

The file carries two revisions of `pathFinder.getPointOnPath`: the first
returns a plain point and replaces NaN coordinates by 0.5
(`getPointOnPath1` below); the second clamps `t` into `[0,1]`, clamps the
output into `[0,1]` and additionally returns a heading angle
(`getPointOnPath2` below).  The heading component (`Math.atan2` of a
finite-difference look-ahead) is not modelled: rationals carry no
arctangent and no claim refers to the angle's value.

A hint-array entry is a JS object that may be null or carry non-numeric
coordinates; `RawHint` models it with `Option JSNum` coordinates, where
`none` stands for a value whose `typeof` is not `'number'` (a null entry
behaves identically to one with missing coordinates under the filter).
Note that NaN and the infinities ARE of `typeof 'number'` and pass the
filter.

`jsIndex` models JavaScript array indexing at an integer index; reading a
property of the `undefined` produced by an out-of-range access throws, so
the functions return `Option`: `none` models a thrown `TypeError`.
-/

/-- JavaScript array indexing `l[i]` at an integer index: `none` models
`undefined` (out-of-range access). -/
def jsIndex {α : Type} (l : List α) (i : ℤ) : Option α :=
  if h : 0 ≤ i ∧ i.toNat < l.length then some (l.get ⟨i.toNat, h.2⟩) else none

/-- A raw hint-array entry; `none` coordinates model non-numeric values. -/
structure RawHint where
  x : Option JSNum
  y : Option JSNum

/-- A point whose coordinates are JS numbers (possibly NaN or infinite). -/
structure JSPoint where
  x : JSNum
  y : JSNum
deriving DecidableEq, Repr

/-- The filter `points.filter(p => p && typeof p.x === 'number' && typeof
p.y === 'number')`: keep exactly the entries with two numeric coordinates. -/
def validHints (points : List RawHint) : List JSPoint :=
  points.filterMap (fun p =>
    match p.x, p.y with
    | some a, some b => some ⟨a, b⟩
    | _, _ => none)

/-- The default centre point `{x: 0.5, y: 0.5}`. -/
def centerPoint : JSPoint := ⟨.fin (1/2), .fin (1/2)⟩

/-- `calculateCoord` of pathFinder.ts over JS numbers, with the exact
association of the source expression. -/
def calcCoord (c0 c1 c2 c3 T : JSNum) : JSNum :=
  .jsMul (.fin (1/2))
    (.jsAdd
      (.jsAdd
        (.jsAdd (.jsMul (.fin 2) c1)
          (.jsMul (.jsAdd (.jsNeg c0) c2) T))
        (.jsMul (.jsMul (.jsSub (.jsAdd (.jsSub (.jsMul (.fin 2) c0) (.jsMul (.fin 5) c1)) (.jsMul (.fin 4) c2)) c3) T) T))
      (.jsMul (.jsMul (.jsMul (.jsAdd (.jsSub (.jsAdd (.jsNeg c0) (.jsMul (.fin 3) c1)) (.jsMul (.fin 3) c2)) c3) T) T) T))

/-- `calculateCoord` restricted to finite inputs, as a rational polynomial. -/
def calcCoordQ (c0 c1 c2 c3 T : ℚ) : ℚ :=
  (1/2) * ((2 * c1 + (-c0 + c2) * T + ((2 * c0 - 5 * c1 + 4 * c2 - c3) * T) * T)
    + (((-c0 + 3 * c1 - 3 * c2 + c3) * T) * T) * T)

/-- The four-control-point segment evaluation shared by both revisions of
`getPointOnPath` (steps 2-4 of the source): segment index, local
parameter, control-point fetch, and the Catmull-Rom formula on both
coordinates.  `tEff` is the (possibly clamped) progress parameter. -/
def splineSegment (valid : List JSPoint) (tEff : ℚ) :
    Option (JSPoint × JSPoint × JSPoint × JSPoint × ℚ) :=
  let n : ℤ := (valid.length : ℤ) - 1
  let rawIndex : ℚ := tEff * (n : ℚ)
  let i : ℤ := min ⌊rawIndex⌋ (n - 1)
  let localT : ℚ := rawIndex - (i : ℚ)
  do
    let p0 ← jsIndex valid (max (i - 1) 0)
    let p1 ← jsIndex valid i
    let p2 ← jsIndex valid (i + 1)
    let p3 ← jsIndex valid (min (i + 2) n)
    some (p0, p1, p2, p3, localT)

/-- The first revision of `pathFinder.getPointOnPath` (plain point, NaN
results replaced by 0.5, no clamping of `t` or of the output).  `none`
models a thrown `TypeError` from an out-of-range array access (which the
source performs for `t < 0`). -/
def getPointOnPath1 (points : List RawHint) (t : ℚ) : Option JSPoint :=
  if points.length = 0 then some centerPoint
  else
    match validHints points with
    | [] => some centerPoint
    | [p] => some ⟨p.x, p.y⟩
    | q₁ :: q₂ :: rest =>
      do
        let (p0, p1, p2, p3, localT) ← splineSegment (q₁ :: q₂ :: rest) t
        let rx := calcCoord p0.x p1.x p2.x p3.x (.fin localT)
        let ry := calcCoord p0.y p1.y p2.y p3.y (.fin localT)
        some ⟨if rx.isNaN then .fin (1/2) else rx,
              if ry.isNaN then .fin (1/2) else ry⟩

/-- `Math.max(0, Math.min(1, v))` on a JS number. -/
def jsClamp01 (v : JSNum) : JSNum := .jsMax (.fin 0) (.jsMin (.fin 1) v)

/-- The second revision of `pathFinder.getPointOnPath` (PathState variant):
clamps `t` into `[0,1]`, replaces NaN coordinates by 0.5 and clamps the
output into `[0,1]`.  Only the position components are modelled (see the
section comment).  The single-valid-hint branch returns the hint's
coordinates unmodified, exactly as in the source. -/
def getPointOnPath2 (points : List RawHint) (t : ℚ) : Option JSPoint :=
  if points.length = 0 then some centerPoint
  else
    match validHints points with
    | [] => some centerPoint
    | [p] => some ⟨p.x, p.y⟩
    | q₁ :: q₂ :: rest =>
      do
        let (p0, p1, p2, p3, localT) ← splineSegment (q₁ :: q₂ :: rest) (max 0 (min 1 t))
        let rx := calcCoord p0.x p1.x p2.x p3.x (.fin localT)
        let ry := calcCoord p0.y p1.y p2.y p3.y (.fin localT)
        some ⟨jsClamp01 (if rx.isNaN then .fin (1/2) else rx),
              jsClamp01 (if ry.isNaN then .fin (1/2) else ry)⟩

/-- Hint lists whose entries all carry finite numeric coordinates (the
domain actually produced by the JSON `layout_hints` payload). -/
def finHints (ps : List (ℚ × ℚ)) : List RawHint :=
  ps.map (fun p => ⟨some (.fin p.1), some (.fin p.2)⟩)

/-!
## motionLogic pathFinder (src/src/lib/motionLogic.ts)

`snapToStage` maps a normalized query point to the nearest stage-grid
point.  Grid points live in pixel space; all quantities are finite in
every reachable use (the grid is built from element geometry), so they
are modelled as rationals.  `minDistanceSq` starts at `Infinity`,
modelled by `none`.
-/

/-- A finite point (pixel- or normalized-space). -/
structure QPoint where
  x : ℚ
  y : ℚ
deriving DecidableEq, Repr

/-- The scan loop of `snapToStage`: carry the closest point so far and the
smallest squared distance so far (`none` = `Infinity`). -/
def snapFold (tx ty : ℚ) : List QPoint → QPoint × Option ℚ → QPoint × Option ℚ
  | [], acc => acc
  | p :: ps, (best, bestD) =>
    let dSq := (p.x - tx) * (p.x - tx) + (p.y - ty) * (p.y - ty)
    match bestD with
    | none => snapFold tx ty ps (p, some dSq)
    | some m =>
      if dSq < m then snapFold tx ty ps (p, some dSq)
      else snapFold tx ty ps (best, some m)

/-- `pathFinder.snapToStage` from src/src/lib/motionLogic.ts: with an empty
grid, return the input clamped into `[0,1]` componentwise; otherwise scan
the whole grid for the point of smallest squared pixel distance to the
input scaled by the canvas size, and return it divided back to normalized
coordinates. -/
def snapToStage (stageGrid : List QPoint) (x y canvasWidth canvasHeight : ℚ) : QPoint :=
  match stageGrid with
  | [] => ⟨max 0 (min 1 x), max 0 (min 1 y)⟩
  | g₀ :: _ =>
    let targetX := x * canvasWidth
    let targetY := y * canvasHeight
    let r := snapFold targetX targetY stageGrid (g₀, none)
    ⟨r.1.x / canvasWidth, r.1.y / canvasHeight⟩

/-- Squared pixel distance from a grid point to the scaled query point. -/
def distSqTo (tx ty : ℚ) (p : QPoint) : ℚ :=
  (p.x - tx) * (p.x - tx) + (p.y - ty) * (p.y - ty)

/-!
## IframeScrollBridge (src/src/components/IframeScrollBridge.tsx)

Host-side `handleMessage` listener: filters by activity and the
`'iframe-scroll'` type tag, throttles to one forwarded report per 50ms
(`now - lastUpdateRef.current >= throttleMs`), and guards the callback
invocation behind a `typeof onScrollChange === 'function'` check.
`JSCallback` models the `onScrollChange` prop: a function value or any
non-callable value; invoking a non-callable would throw, modelled by
`Except.error`.
-/

/-- The `ScrollData` payload of a scroll report. -/
structure ScrollData where
  scrollPercent : ℚ
  scrollY : ℚ
  viewportHeight : ℚ
  documentHeight : ℚ
deriving DecidableEq, Repr

/-- A `message` event as seen by the host listener: arrival time
(`Date.now()` at handling), the `data.type` tag and the payload. -/
structure BridgeMsg where
  time : ℤ
  msgType : String
  data : ScrollData
deriving DecidableEq, Repr

/-- The `onScrollChange` prop: either a function or some other value. -/
inductive JSCallback where
  | callable
  | notCallable
deriving DecidableEq, Repr

/-- `typeof onScrollChange === 'function'`. -/
def typeofIsFunction : JSCallback → Bool
  | .callable => true
  | .notCallable => false

/-- Invoking the prop as a function: delivers the payload when it is
callable, throws a `TypeError` otherwise. -/
def jsInvoke (cb : JSCallback) (d : ScrollData) : Except String (List ScrollData) :=
  match cb with
  | .callable => .ok [d]
  | .notCallable => .error "TypeError: onScrollChange is not a function"

/-- `throttleMs = 50`. -/
def throttleMs : ℤ := 50

/-- One run of `handleMessage`: returns the forwarded payloads (at most
one) and the updated `lastUpdateRef` value, or a thrown exception. -/
def handleMessage (isActive : Bool) (cb : JSCallback) (lastUpdate : ℤ) (m : BridgeMsg) :
    Except String (List ScrollData × ℤ) :=
  if isActive = false ∨ m.msgType ≠ "iframe-scroll" then .ok ([], lastUpdate)
  else if throttleMs ≤ m.time - lastUpdate then
    if typeofIsFunction cb then do
      let out ← jsInvoke cb m.data
      .ok (out, m.time)
    else
      .ok ([], m.time)
  else .ok ([], lastUpdate)

/-- Run the listener over a sequence of incoming messages, collecting every
forwarded payload in order. -/
def runBridge (isActive : Bool) (cb : JSCallback) (lastUpdate : ℤ) :
    List BridgeMsg → Except String (List ScrollData)
  | [] => .ok []
  | m :: ms => do
    let r ← handleMessage isActive cb lastUpdate m
    let rest ← runBridge isActive cb r.2 ms
    .ok (r.1 ++ rest)

/-!
## CanvasRenderer easing table (src/src/components/CanvasRenderer.tsx)

The `Easing` object with keys `linear`, `easeInOutQuad`, `easeOutCubic`,
`backOut`, and the defensive lookup
`rawEaseKey in Easing ? Easing[rawEaseKey] : Easing.linear` fed by
`currentFrame.motion_ease || currentFrame.style_dna?.motionEase || 'linear'`.
-/

namespace Easing

/-- `Easing.linear`. -/
def linear (t : ℚ) : ℚ := t

/-- `Easing.easeInOutQuad`. -/
def easeInOutQuad (t : ℚ) : ℚ :=
  if t < 1/2 then 2 * t * t else 1 - ((-2) * t + 2) ^ 2 / 2

/-- `Easing.easeOutCubic`. -/
def easeOutCubic (t : ℚ) : ℚ := 1 - (1 - t) ^ 3

/-- `Easing.backOut` (c1 = 1.70158, c3 = c1 + 1). -/
def backOut (t : ℚ) : ℚ :=
  1 + (170158/100000 + 1) * (t - 1) ^ 3 + (170158/100000) * (t - 1) ^ 2

end Easing

/-- The own-key set of the `Easing` object literal, in declaration order. -/
def easingKeys : List String := ["linear", "easeInOutQuad", "easeOutCubic", "backOut"]

/-- Own-property lookup on the `Easing` object literal: `some` exactly on
the four declared keys. -/
def easingLookup (k : String) : Option (ℚ → ℚ) :=
  if k = "linear" then some Easing.linear
  else if k = "easeInOutQuad" then some Easing.easeInOutQuad
  else if k = "easeOutCubic" then some Easing.easeOutCubic
  else if k = "backOut" then some Easing.backOut
  else none

/-- The function-valued properties every plain object literal inherits
from `Object.prototype`: the JS `in` operator matches them and
`typeof` reports `'function'` for each. -/
def objectProtoFunctionKeys : List String :=
  ["constructor", "hasOwnProperty", "isPrototypeOf", "propertyIsEnumerable",
   "toLocaleString", "toString", "valueOf",
   "__defineGetter__", "__defineSetter__", "__lookupGetter__", "__lookupSetter__"]

/-- The value produced by the property read `Easing[k]`: one of the four
own easing functions, a function inherited from `Object.prototype`
(identified by its name — it is not an easing curve), the inherited
`__proto__` object (not a function), or the JS undefined value. -/
inductive EasingProp where
  | fn : (ℚ → ℚ) → EasingProp
  | protoFn : String → EasingProp
  | protoObj : EasingProp
  | jsUndefined : EasingProp

/-- The property read `Easing[k]`, prototype chain included. -/
def easingProp (k : String) : EasingProp :=
  match easingLookup k with
  | some f => .fn f
  | none =>
    if k ∈ objectProtoFunctionKeys then .protoFn k
    else if k = "__proto__" then .protoObj
    else .jsUndefined

/-- The JS `in` operator on `Easing`: true for own keys and for every
property inherited from `Object.prototype`. -/
def keyInEasing (k : String) : Bool :=
  match easingProp k with
  | .jsUndefined => false
  | _ => true

/-- `typeof Easing[k] === 'function'`. -/
def typeofIsFunctionProp : EasingProp → Bool
  | .fn _ => true
  | .protoFn _ => true
  | _ => false

/-- The defensive lookup of CanvasRenderer.tsx:
`(rawEaseKey in Easing && typeof Easing[rawEaseKey] === 'function') ?
Easing[rawEaseKey] : Easing.linear` — the fallback branch also logs a
console warning.  Because `in` and the typeof test both accept inherited
`Object.prototype` methods, a key such as `"toString"` selects the
inherited function rather than the fallback. -/
def resolveEaseFn (k : String) : EasingProp :=
  if keyInEasing k && typeofIsFunctionProp (easingProp k) then easingProp k
  else .fn Easing.linear

/-- JavaScript `a || b` on an optional string (absent or empty = falsy). -/
def jsOrOpt (a b : Option String) : Option String :=
  match a with
  | some s => if s = "" then b else some s
  | none => b

/-- JavaScript `a || b` where the fallback is a string literal. -/
def jsOrStr (a : Option String) (b : String) : String :=
  match a with
  | some s => if s = "" then b else s
  | none => b

/-- The easing-key selection chain of CanvasRenderer.tsx:
`currentFrame.motion_ease || currentFrame.style_dna?.motionEase || 'linear'`. -/
def rawEaseKey (motion_ease styleMotionEase : Option String) : String :=
  jsOrStr (jsOrOpt motion_ease styleMotionEase) "linear"

/-!
## Helper lemmas
-/

theorem jsAdd_fin (a b : ℚ) : JSNum.jsAdd (.fin a) (.fin b) = .fin (a + b) := rfl

theorem jsMul_fin (a b : ℚ) : JSNum.jsMul (.fin a) (.fin b) = .fin (a * b) := rfl

theorem jsSub_fin (a b : ℚ) : JSNum.jsSub (.fin a) (.fin b) = .fin (a - b) := by
  simp [JSNum.jsSub, JSNum.jsAdd, JSNum.jsNeg, sub_eq_add_neg]

theorem isNaN_fin (a : ℚ) : (JSNum.fin a).isNaN = false := rfl

/-- On finite arguments `calcCoord` computes the rational Catmull-Rom basis. -/
theorem calcCoord_fin (c0 c1 c2 c3 T : ℚ) :
    calcCoord (.fin c0) (.fin c1) (.fin c2) (.fin c3) (.fin T) =
      .fin (calcCoordQ c0 c1 c2 c3 T) := by
  simp [calcCoord, calcCoordQ, JSNum.jsSub, JSNum.jsAdd, JSNum.jsMul, JSNum.jsNeg,
    sub_eq_add_neg]

/-- At local parameter 0 the Catmull-Rom basis returns the second control
point (the segment start). -/
theorem calcCoordQ_zero (c0 c1 c2 c3 : ℚ) : calcCoordQ c0 c1 c2 c3 0 = c1 := by
  unfold calcCoordQ; ring

/-- At local parameter 1 the Catmull-Rom basis returns the third control
point (the segment end). -/
theorem calcCoordQ_one (c0 c1 c2 c3 : ℚ) : calcCoordQ c0 c1 c2 c3 1 = c2 := by
  unfold calcCoordQ; ring

/-- The NaN-replacement step never returns a NaN coordinate. -/
theorem sanitize_not_nan (v : JSNum) :
    (if v.isNaN then JSNum.fin (1/2) else v).isNaN = false := by
  cases v <;> simp [JSNum.isNaN]

/-- The NaN-replacement step followed by the `[0,1]` clamp always produces
a finite value in `[0,1]`, whatever JS number the curve math returned. -/
theorem sanitize_clamp_bounds (v : JSNum) :
    ∃ q : ℚ, jsClamp01 (if v.isNaN then .fin (1/2) else v) = .fin q ∧ 0 ≤ q ∧ q ≤ 1 := by
  cases v with
  | fin q =>
    refine ⟨max 0 (min 1 q), ?_, le_max_left 0 _, max_le (by norm_num) (min_le_left 1 q)⟩
    simp [jsClamp01, JSNum.isNaN, JSNum.jsMin, JSNum.jsMax]
  | inf =>
    refine ⟨1, ?_, by norm_num, by norm_num⟩
    show JSNum.jsMax (.fin 0) (JSNum.jsMin (.fin 1) .inf) = .fin 1
    norm_num [JSNum.jsMin, JSNum.jsMax]
  | ninf =>
    refine ⟨0, ?_, by norm_num, by norm_num⟩
    show JSNum.jsMax (.fin 0) (JSNum.jsMin (.fin 1) .ninf) = .fin 0
    norm_num [JSNum.jsMin, JSNum.jsMax]
  | nan =>
    refine ⟨1/2, ?_, by norm_num, by norm_num⟩
    show JSNum.jsMax (.fin 0) (JSNum.jsMin (.fin 1) (.fin (1/2))) = .fin (1/2)
    norm_num [JSNum.jsMin, JSNum.jsMax]

/-- Clamping a rational already inside `[0,1]` is the identity. -/
theorem jsClamp01_of_mem (q : ℚ) (h0 : 0 ≤ q) (h1 : q ≤ 1) :
    jsClamp01 (.fin q) = .fin q := by
  have : JSNum.jsMax (.fin 0) (JSNum.jsMin (.fin 1) (.fin q)) = .fin (max 0 (min 1 q)) := by
    simp [JSNum.jsMin, JSNum.jsMax]
  rw [jsClamp01, this, min_eq_right h1, max_eq_right h0]

/-!
## Orchestrator lemmas
-/

/-- The effect body emits exactly one event when the resolved id differs
from the stored one, and none otherwise. -/
theorem orchStep_events {σ : Type} (wps : List (ScrollWaypoint σ))
    (st : Option (ActiveWaypoint σ)) (p : ℚ) :
    (orchStep wps st p).2 =
      if resolvedId wps p ≠ st.map (fun a => a.waypoint.id)
      then [eventFor (findActiveWaypoint wps p)] else [] := by
  unfold orchStep resolvedId eventFor
  split_ifs <;> simp_all

/-- After one update the stored waypoint id always equals the id resolved
for that scroll percent. -/
theorem orchStep_active_id {σ : Type} (wps : List (ScrollWaypoint σ))
    (st : Option (ActiveWaypoint σ)) (p : ℚ) :
    ((orchStep wps st p).1).map (fun a => a.waypoint.id) = resolvedId wps p := by
  unfold orchStep resolvedId
  dsimp only
  split_ifs with h
  · rfl
  · push_neg at h
    exact h.symm

/-- Feeding the same scroll percent twice emits exactly what feeding it
once does: the repeated update emits nothing. -/
theorem orchRun_repeat {σ : Type} (wps : List (ScrollWaypoint σ))
    (st : Option (ActiveWaypoint σ)) (p : ℚ) (ps : List ℚ) :
    orchRun wps st (p :: p :: ps) = orchRun wps st (p :: ps) := by
  have hstep : orchStep wps (orchStep wps st p).1 p = ((orchStep wps st p).1, []) := by
    unfold orchStep
    rw [if_neg]
    intro hne
    exact hne (orchStep_active_id wps st p).symm
  show (orchStep wps st p).2 ++ orchRun wps (orchStep wps st p).1 (p :: ps)
      = (orchStep wps st p).2 ++ orchRun wps (orchStep wps st p).1 ps
  congr 1
  show (orchStep wps (orchStep wps st p).1 p).2
      ++ orchRun wps (orchStep wps (orchStep wps st p).1 p).1 ps
      = orchRun wps (orchStep wps st p).1 ps
  rw [hstep]
  rfl

/-- The number of emitted events over any feed equals the number of
adjacent changes in the sequence of resolved ids, starting from the
stored id. -/
theorem orchRun_length {σ : Type} (wps : List (ScrollWaypoint σ)) (feed : List ℚ) :
    ∀ st : Option (ActiveWaypoint σ),
    (orchRun wps st feed).length =
      countChanges (st.map (fun a => a.waypoint.id) :: feed.map (resolvedId wps)) := by
  induction feed with
  | nil => intro st; rfl
  | cons p ps ih =>
    intro st
    show ((orchStep wps st p).2 ++ orchRun wps (orchStep wps st p).1 ps).length = _
    rw [List.length_append, ih (orchStep wps st p).1, orchStep_active_id,
      List.map_cons, countChanges]
    rw [orchStep_events]
    congr 1
    split_ifs with h1 h2 h3 <;> simp_all [ne_comm]

/-!
## Claim theorems
-/

/-- C1 counterexample: on the scenario list
`[{id:"w1",start:0,duration:30},{id:"w2",start:30,duration:70}]` the
resolution at scroll fraction 30.0 yields `"w1"`, not `"w2"` as the claim
asserts: the scan returns the first waypoint whose closed interval
contains the fraction, and 30.0 lies in w1's interval `[0, 30]`. -/
theorem C1_boundary_counterexample :
    resolvedId scenarioWaypoints 30 = some "w1" ∧
    resolvedId scenarioWaypoints 30 ≠ some "w2" := by
  norm_num [resolvedId, findActiveWaypoint, scenarioWaypoints, waypointMatches, List.find?]
  decide

/-- C1 (amended): with the ordered waypoint list
`[{id:"w1", activation start 0, duration 30}, {id:"w2", activation start
30, duration 70}]`, resolving the active waypoint for scroll fraction
29.9 yields "w1"; resolving it for scroll fraction 30.0 also yields "w1"
(both closed intervals contain 30.0 and w1 comes first in scan order);
fractions strictly above 30 such as 30.1 yield "w2". -/
theorem C1_boundary_resolution :
    resolvedId scenarioWaypoints (299/10) = some "w1" ∧
    resolvedId scenarioWaypoints 30 = some "w1" ∧
    resolvedId scenarioWaypoints (301/10) = some "w2" := by
  norm_num [resolvedId, findActiveWaypoint, scenarioWaypoints, waypointMatches, List.find?]

/-- C3: the orchestrator emits an active-scene-change event exactly when
the resolved waypoint id differs from the previously resolved id: one
update emits one event iff the id changed (first conjunct); feeding the
same scroll fraction again emits zero additional events (second
conjunct); and over any feed the total number of events equals the
number of adjacent changes in the sequence of resolved ids — under a
monotonically increasing feed, exactly one event per waypoint-boundary
crossing (third conjunct). -/
theorem C3_change_event_discipline :
    ∀ (σ : Type) (wps : List (ScrollWaypoint σ)) (st : Option (ActiveWaypoint σ))
      (p : ℚ) (ps : List ℚ) (feed : List ℚ),
    ((orchStep wps st p).2 =
      if resolvedId wps p ≠ st.map (fun a => a.waypoint.id)
      then [eventFor (findActiveWaypoint wps p)] else []) ∧
    orchRun wps st (p :: p :: ps) = orchRun wps st (p :: ps) ∧
    (orchRun wps none feed).length = countChanges (none :: feed.map (resolvedId wps)) :=
  fun σ wps st p ps feed =>
    ⟨orchStep_events wps st p, orchRun_repeat wps st p ps, orchRun_length wps feed none⟩

/-!
## Scroll-bridge lemmas
-/

/-- Bind-reduction for `Except` (used to unfold the listener runs). -/
theorem exbind_ok {α β : Type} (a : α) (f : α → Except String β) :
    (Except.ok a : Except String α) >>= f = f a := rfl

/-- One listener run never throws, forwards nothing when the callback is
not callable, and forwards at most the incoming payload. -/
theorem handleMessage_ok (isActive : Bool) (cb : JSCallback) (lastUpdate : ℤ) (m : BridgeMsg) :
    ∃ r, handleMessage isActive cb lastUpdate m = .ok r ∧
      (cb = .notCallable → r.1 = []) ∧ r.1.Sublist [m.data] := by
  by_cases hty : isActive = false ∨ m.msgType ≠ "iframe-scroll"
  · exact ⟨([], lastUpdate), by simp [handleMessage, hty], fun _ => rfl, by simp⟩
  · by_cases ht : throttleMs ≤ m.time - lastUpdate
    · cases cb with
      | callable =>
        exact ⟨([m.data], m.time),
          by simp [handleMessage, hty, ht, typeofIsFunction, jsInvoke, exbind_ok],
          by simp, by simp⟩
      | notCallable =>
        exact ⟨([], m.time), by simp [handleMessage, hty, ht, typeofIsFunction],
          fun _ => rfl, by simp⟩
    · exact ⟨([], lastUpdate), by simp [handleMessage, hty, ht], fun _ => rfl, by simp⟩

/-- When active, a listener run either leaves the state untouched with no
forwarding, or forwards at most one payload, stamps `lastUpdate` to the
arrival time, and only does so when the 50ms throttle has elapsed. -/
theorem handleMessage_cases (cb : JSCallback) (lastUpdate : ℤ) (m : BridgeMsg) :
    handleMessage true cb lastUpdate m = .ok ([], lastUpdate) ∨
    (∃ out1 : List ScrollData, handleMessage true cb lastUpdate m = .ok (out1, m.time) ∧
      out1.Sublist [m.data] ∧ throttleMs ≤ m.time - lastUpdate) := by
  by_cases hty : m.msgType = "iframe-scroll"
  · by_cases ht : throttleMs ≤ m.time - lastUpdate
    · right
      cases cb with
      | callable =>
        exact ⟨[m.data], by simp [handleMessage, hty, ht, typeofIsFunction, jsInvoke, exbind_ok],
          by simp, ht⟩
      | notCallable =>
        exact ⟨[], by simp [handleMessage, hty, ht, typeofIsFunction], by simp, ht⟩
    · left; simp [handleMessage, hty, ht]
  · left; simp [handleMessage, hty]

/-- A full run of the listener never throws, forwards nothing when the
callback is not callable, and forwards a subsequence of the incoming
payloads (reports are dropped, never synthesized or averaged). -/
theorem runBridge_ok (isActive : Bool) (cb : JSCallback) (msgs : List BridgeMsg) :
    ∀ lastUpdate : ℤ, ∃ out, runBridge isActive cb lastUpdate msgs = .ok out ∧
      (cb = .notCallable → out = []) ∧ out.Sublist (msgs.map (fun m => m.data)) := by
  induction msgs with
  | nil => exact fun lastUpdate => ⟨[], rfl, fun _ => rfl, by simp⟩
  | cons m ms ih =>
    intro lastUpdate
    obtain ⟨r, hr, hnc, hsub⟩ := handleMessage_ok isActive cb lastUpdate m
    obtain ⟨rest, hrest, hncr, hsubr⟩ := ih r.2
    refine ⟨r.1 ++ rest, ?_, ?_, ?_⟩
    · show (handleMessage isActive cb lastUpdate m >>= fun r =>
        runBridge isActive cb r.2 ms >>= fun rest => Except.ok (r.1 ++ rest)) = _
      rw [hr, exbind_ok, hrest, exbind_ok]
    · intro h
      rw [hnc h, hncr h]
      rfl
    · simpa using List.Sublist.append hsub hsubr

/-- Once `lastUpdate` lies inside a window shorter than the throttle
interval, no further message of that window is forwarded. -/
theorem runBridge_noFire (cb : JSCallback) (t0 W : ℤ) (msgs : List BridgeMsg) :
    ∀ lastUpdate : ℤ, W < throttleMs →
    (∀ m ∈ msgs, t0 ≤ m.time ∧ m.time ≤ t0 + W) → t0 ≤ lastUpdate →
    runBridge true cb lastUpdate msgs = .ok [] := by
  induction msgs with
  | nil => intro lastUpdate _ _ _; rfl
  | cons m ms ih =>
    intro lastUpdate hW hwin hlast
    have hm := hwin m (by simp)
    have hnof : ¬ throttleMs ≤ m.time - lastUpdate := by
      have h50 : throttleMs = 50 := rfl
      omega
    have hr : handleMessage true cb lastUpdate m = .ok ([], lastUpdate) := by
      rcases handleMessage_cases cb lastUpdate m with h | ⟨out1, h, hsub, ht⟩
      · exact h
      · exact absurd ht hnof
    have hrest := ih lastUpdate hW (fun x hx => hwin x (by simp [hx])) hlast
    show (handleMessage true cb lastUpdate m >>= fun r =>
      runBridge true cb r.2 ms >>= fun rest => Except.ok (r.1 ++ rest)) = _
    rw [hr, exbind_ok, hrest, exbind_ok]
    rfl

/-- Over any message sequence confined to a wall-clock window shorter than
the throttle interval, at most one payload is forwarded. -/
theorem runBridge_window_bound (cb : JSCallback) (t0 W : ℤ) (msgs : List BridgeMsg) :
    ∀ lastUpdate : ℤ, W < throttleMs →
    (∀ m ∈ msgs, t0 ≤ m.time ∧ m.time ≤ t0 + W) →
    ∃ out, runBridge true cb lastUpdate msgs = .ok out ∧ out.length ≤ 1 := by
  induction msgs with
  | nil => exact fun lastUpdate _ _ => ⟨[], rfl, by simp⟩
  | cons m ms ih =>
    intro lastUpdate hW hwin
    have hm := hwin m (by simp)
    rcases handleMessage_cases cb lastUpdate m with h | ⟨out1, h, hsub, ht⟩
    · obtain ⟨out, hout, hlen⟩ := ih lastUpdate hW (fun x hx => hwin x (by simp [hx]))
      refine ⟨out, ?_, hlen⟩
      show (handleMessage true cb lastUpdate m >>= fun r =>
        runBridge true cb r.2 ms >>= fun rest => Except.ok (r.1 ++ rest)) = _
      rw [h, exbind_ok, hout, exbind_ok]
      rfl
    · have hrest : runBridge true cb m.time ms = .ok [] :=
        runBridge_noFire cb t0 W ms m.time hW (fun x hx => hwin x (by simp [hx])) hm.1
      refine ⟨out1, ?_, by simpa using List.Sublist.length_le hsub⟩
      show (handleMessage true cb lastUpdate m >>= fun r =>
        runBridge true cb r.2 ms >>= fun rest => Except.ok (r.1 ++ rest)) = _
      rw [h, exbind_ok, hrest, exbind_ok, List.append_nil]

/-- C6: for every sequence of scroll reports arriving within a wall-clock
window shorter than the 50ms throttle interval, the host listener forwards
at most `floor(window/interval)+1 = 1` report to the callback, and the
forwarded payloads are a subsequence of the arriving ones (intermediate
reports are dropped, not averaged). -/
theorem C6_throttle_window_bound :
    ∀ (cb : JSCallback) (lastUpdate t0 W : ℤ) (msgs : List BridgeMsg),
    W < throttleMs →
    (∀ m ∈ msgs, t0 ≤ m.time ∧ m.time ≤ t0 + W) →
    ∃ out, runBridge true cb lastUpdate msgs = .ok out ∧ out.length ≤ 1 ∧
      out.Sublist (msgs.map (fun m => m.data)) := by
  intro cb lastUpdate t0 W msgs hW hwin
  obtain ⟨o1, h1, hlen⟩ := runBridge_window_bound cb t0 W msgs lastUpdate hW hwin
  obtain ⟨o2, h2, -, hsub⟩ := runBridge_ok true cb msgs lastUpdate
  have : o1 = o2 := by
    have := h1.symm.trans h2
    exact Except.ok.inj this
  exact ⟨o1, h1, hlen, this ▸ hsub⟩

/-- C6 witness: three reports at times 100, 120, 140 (window width 40 <
50) with the throttle state starting at 0: at most one is forwarded. -/
theorem C6_throttle_window_bound_witness :
    ∃ out, runBridge true .callable 0
      [⟨100, "iframe-scroll", ⟨10, 100, 800, 2000⟩⟩,
       ⟨120, "iframe-scroll", ⟨20, 200, 800, 2000⟩⟩,
       ⟨140, "iframe-scroll", ⟨30, 300, 800, 2000⟩⟩] = .ok out ∧
      out.length ≤ 1 ∧
      out.Sublist ([⟨100, "iframe-scroll", ⟨10, 100, 800, 2000⟩⟩,
       ⟨120, "iframe-scroll", ⟨20, 200, 800, 2000⟩⟩,
       ⟨140, "iframe-scroll", ⟨30, 300, 800, 2000⟩⟩].map (fun (m : BridgeMsg) => m.data)) :=
  C6_throttle_window_bound .callable 0 100 40 _ (by decide) (by decide)

/-- C8: for every message sequence and every value of the `onScrollChange`
prop, the host listener never throws (it always returns normally), and
when the prop is not callable it forwards nothing — the guarded branch
only logs. -/
theorem C8_noncallable_noop :
    ∀ (isActive : Bool) (cb : JSCallback) (lastUpdate : ℤ) (msgs : List BridgeMsg),
    ∃ out, runBridge isActive cb lastUpdate msgs = .ok out ∧
      (cb = .notCallable → out = []) :=
  fun isActive cb lastUpdate msgs =>
    (runBridge_ok isActive cb msgs lastUpdate).imp (fun _ h => ⟨h.1, h.2.1⟩)

/-- C8 witness: a well-typed scroll report arriving with a non-callable
callback is processed without an exception and forwards nothing. -/
theorem C8_noncallable_noop_witness :
    ∃ out, runBridge true .notCallable 0
      [⟨100, "iframe-scroll", ⟨50, 100, 800, 2000⟩⟩] = .ok out ∧
      (JSCallback.notCallable = .notCallable → out = []) :=
  C8_noncallable_noop true .notCallable 0 _

/-- C9 counterexample: the key "toString" lies outside the declared
easing table, yet `"toString" in Easing` is true via the prototype chain
and `typeof Easing["toString"]` is `'function'`, so the renderer resolves
it to the inherited `Object.prototype.toString` — not to `Easing.linear`
and not to any member of the table — refuting the claim that every
unknown key resolves to linear. -/
theorem C9_proto_counterexample :
    "toString" ∉ easingKeys ∧
    resolveEaseFn "toString" = .protoFn "toString" ∧
    ∀ f : ℚ → ℚ, resolveEaseFn "toString" ≠ .fn f := by
  refine ⟨by decide, ?_, ?_⟩
  · rfl
  · intro f h
    rw [show resolveEaseFn "toString" = .protoFn "toString" from rfl] at h
    exact EasingProp.noConfusion h

/-- C9 (amended): easing resolution never throws, and every key resolves
either to a member of the declared table or to an inherited
`Object.prototype` method: table keys resolve to their own entry, and any
key outside the table that does not name an inherited prototype property
— such as "bogus" — resolves to `Easing.linear`; but keys naming
inherited prototype methods (toString, valueOf, hasOwnProperty,
constructor, ...) pass the `in` + typeof guard and resolve to the
inherited non-table function. -/
theorem C9_easing_fallback :
    ∀ k : String,
    (resolveEaseFn k = .fn Easing.linear ∨ resolveEaseFn k = .fn Easing.easeInOutQuad ∨
      resolveEaseFn k = .fn Easing.easeOutCubic ∨ resolveEaseFn k = .fn Easing.backOut ∨
      (k ∈ objectProtoFunctionKeys ∧ resolveEaseFn k = .protoFn k)) ∧
    (k ∉ easingKeys → k ∉ objectProtoFunctionKeys → resolveEaseFn k = .fn Easing.linear) := by
  intro k
  by_cases h1 : k = "linear"
  · subst h1
    exact ⟨Or.inl rfl, fun hk _ => absurd (by decide) hk⟩
  by_cases h2 : k = "easeInOutQuad"
  · subst h2
    exact ⟨Or.inr (Or.inl rfl), fun hk _ => absurd (by decide) hk⟩
  by_cases h3 : k = "easeOutCubic"
  · subst h3
    exact ⟨Or.inr (Or.inr (Or.inl rfl)), fun hk _ => absurd (by decide) hk⟩
  by_cases h4 : k = "backOut"
  · subst h4
    exact ⟨Or.inr (Or.inr (Or.inr (Or.inl rfl))), fun hk _ => absurd (by decide) hk⟩
  have hlook : easingLookup k = none := by
    unfold easingLookup
    simp [h1, h2, h3, h4]
  by_cases hp : k ∈ objectProtoFunctionKeys
  · have hres : resolveEaseFn k = .protoFn k := by
      unfold resolveEaseFn keyInEasing easingProp typeofIsFunctionProp
      simp [hlook, hp]
    exact ⟨Or.inr (Or.inr (Or.inr (Or.inr ⟨hp, hres⟩))), fun _ hnp => absurd hp hnp⟩
  by_cases hpr : k = "__proto__"
  · subst hpr
    have hres : resolveEaseFn "__proto__" = .fn Easing.linear := by
      unfold resolveEaseFn keyInEasing easingProp typeofIsFunctionProp
      simp [hlook, hp]
    exact ⟨Or.inl hres, fun _ _ => hres⟩
  · have hres : resolveEaseFn k = .fn Easing.linear := by
      unfold resolveEaseFn keyInEasing easingProp typeofIsFunctionProp
      simp [hlook, hp, hpr]
    exact ⟨Or.inl hres, fun _ _ => hres⟩

/-- C9 witness: the unknown key "bogus" is neither a table key nor an
inherited Object.prototype property name, so it resolves to linear
easing. -/
theorem C9_easing_fallback_witness :
    ("bogus" ∉ easingKeys) ∧ ("bogus" ∉ objectProtoFunctionKeys) ∧
    resolveEaseFn "bogus" = .fn Easing.linear :=
  ⟨by decide, by decide, (C9_easing_fallback "bogus").2 (by decide) (by decide)⟩

/-!
## snapToStage lemmas
-/

/-- Invariant of the `snapToStage` scan loop: starting from a candidate
whose recorded distance is its true distance, the final candidate is the
initial one or a scanned one, its distance never increases, and it is a
minimizer over everything scanned. -/
theorem snapFold_spec (tx ty : ℚ) :
    ∀ (l : List QPoint) (best : QPoint),
    ((snapFold tx ty l (best, some (distSqTo tx ty best))).1 = best ∨
      (snapFold tx ty l (best, some (distSqTo tx ty best))).1 ∈ l) ∧
    distSqTo tx ty (snapFold tx ty l (best, some (distSqTo tx ty best))).1 ≤
      distSqTo tx ty best ∧
    ∀ q ∈ l, distSqTo tx ty (snapFold tx ty l (best, some (distSqTo tx ty best))).1 ≤
      distSqTo tx ty q := by
  intro l
  induction l with
  | nil => exact fun best => ⟨Or.inl rfl, le_refl _, by simp⟩
  | cons p ps ih =>
    intro best
    by_cases hlt : (p.x - tx) * (p.x - tx) + (p.y - ty) * (p.y - ty) < distSqTo tx ty best
    · have hlt2 : distSqTo tx ty p < distSqTo tx ty best := hlt
      have hstep : snapFold tx ty (p :: ps) (best, some (distSqTo tx ty best)) =
          snapFold tx ty ps (p, some (distSqTo tx ty p)) := by
        show (if (p.x - tx) * (p.x - tx) + (p.y - ty) * (p.y - ty) < distSqTo tx ty best
          then snapFold tx ty ps (p, some ((p.x - tx) * (p.x - tx) + (p.y - ty) * (p.y - ty)))
          else snapFold tx ty ps (best, some (distSqTo tx ty best))) = _
        rw [if_pos hlt]
        rfl
      obtain ⟨hmem, hle, hmin⟩ := ih p
      rw [hstep]
      refine ⟨?_, le_of_lt (lt_of_le_of_lt hle hlt2), ?_⟩
      · rcases hmem with hh | hh
        · exact Or.inr (by simp [hh])
        · exact Or.inr (by simp [hh])
      · intro q hq
        rcases List.mem_cons.mp hq with hh | hh
        · rw [hh]; exact hle
        · exact hmin q hh
    · have hge : distSqTo tx ty best ≤ distSqTo tx ty p := not_lt.mp hlt
      have hstep : snapFold tx ty (p :: ps) (best, some (distSqTo tx ty best)) =
          snapFold tx ty ps (best, some (distSqTo tx ty best)) := by
        show (if (p.x - tx) * (p.x - tx) + (p.y - ty) * (p.y - ty) < distSqTo tx ty best
          then snapFold tx ty ps (p, some ((p.x - tx) * (p.x - tx) + (p.y - ty) * (p.y - ty)))
          else snapFold tx ty ps (best, some (distSqTo tx ty best))) = _
        rw [if_neg hlt]
      obtain ⟨hmem, hle, hmin⟩ := ih best
      rw [hstep]
      refine ⟨?_, hle, ?_⟩
      · rcases hmem with hh | hh
        · exact Or.inl hh
        · exact Or.inr (by simp [hh])
      · intro q hq
        rcases List.mem_cons.mp hq with hh | hh
        · rw [hh]; exact hle.trans hge
        · exact hmin q hh

/-- With a non-empty grid, `snapToStage` returns a grid point of minimal
squared pixel distance to the scaled query, converted back to normalized
coordinates. -/
theorem snapToStage_nonempty (g0 : QPoint) (gs : List QPoint) (x y w h : ℚ) :
    ∃ p, p ∈ g0 :: gs ∧ snapToStage (g0 :: gs) x y w h = ⟨p.x / w, p.y / h⟩ ∧
      ∀ q ∈ g0 :: gs, distSqTo (x*w) (y*h) p ≤ distSqTo (x*w) (y*h) q := by
  obtain ⟨hmem, hle, hmin⟩ := snapFold_spec (x*w) (y*h) gs g0
  refine ⟨(snapFold (x*w) (y*h) gs (g0, some (distSqTo (x*w) (y*h) g0))).1, ?_, rfl, ?_⟩
  · rcases hmem with hh | hh
    · rw [hh]; exact List.mem_cons_self g0 gs
    · exact List.mem_cons_of_mem g0 hh
  · intro q hq
    rcases List.mem_cons.mp hq with hh | hh
    · rw [hh]; exact hle
    · exact hmin q hh

/-- C2 counterexample: with an empty stage grid, `snapToStage` does NOT
return the unmodified input point: for the query (2, 0) on a 100×100
canvas it returns the clamped point (1, 0) ≠ (2, 0). -/
theorem C2_snap_counterexample :
    snapToStage [] 2 0 100 100 = ⟨1, 0⟩ ∧ (⟨1, 0⟩ : QPoint) ≠ ⟨2, 0⟩ := by
  constructor
  · show (⟨max 0 (min 1 2), max 0 (min 1 0)⟩ : QPoint) = ⟨1, 0⟩
    norm_num
  · simp [QPoint.mk.injEq]

/-- C2 (amended): for every query point and canvas dimensions, when the
stage grid is empty `snapToStage` returns the input point clamped
componentwise into `[0,1]` (not the unmodified input); when the grid is
non-empty it returns a grid point converted back to normalized
coordinates, chosen at minimum (squared, equivalently plain) Euclidean
pixel distance from the input scaled to pixel space. -/
theorem C2_snap_behavior :
    (∀ x y w h : ℚ, snapToStage [] x y w h = ⟨max 0 (min 1 x), max 0 (min 1 y)⟩) ∧
    (∀ (g0 : QPoint) (gs : List QPoint) (x y w h : ℚ),
      ∃ p, p ∈ g0 :: gs ∧ snapToStage (g0 :: gs) x y w h = ⟨p.x / w, p.y / h⟩ ∧
        ∀ q ∈ g0 :: gs, distSqTo (x*w) (y*h) p ≤ distSqTo (x*w) (y*h) q) :=
  ⟨fun _ _ _ _ => rfl, snapToStage_nonempty⟩

/-- C2 witness: on the two-point grid {(10,10), (90,90)} with query (0,0)
scaled by a 100×100 canvas, the snapped point is a minimal-distance grid
point returned in normalized coordinates. -/
theorem C2_snap_behavior_witness :
    ∃ p, p ∈ [⟨10, 10⟩, ⟨90, 90⟩] ∧
      snapToStage [⟨10, 10⟩, ⟨90, 90⟩] 0 0 100 100 = ⟨p.x / 100, p.y / 100⟩ ∧
      ∀ q ∈ [(⟨10, 10⟩ : QPoint), ⟨90, 90⟩],
        distSqTo (0*100) (0*100) p ≤ distSqTo (0*100) (0*100) q :=
  C2_snap_behavior.2 ⟨10, 10⟩ [⟨90, 90⟩] 0 0 100 100

/-!
## pathFinder lemmas
-/

theorem validHints_nil : validHints [] = [] := rfl

/-- An entry with a non-numeric coordinate is dropped by the filter. -/
theorem validHints_cons_invalid (p : RawHint) (hs : List RawHint)
    (h : p.x = none ∨ p.y = none) : validHints (p :: hs) = validHints hs := by
  obtain ⟨px, py⟩ := p
  simp only at h
  rcases h with h | h
  · subst h
    cases py <;> simp [validHints]
  · subst h
    cases px <;> simp [validHints]

/-- Finite rational hints all survive the filter. -/
theorem validHints_finHints (ps : List (ℚ × ℚ)) :
    validHints (finHints ps) = ps.map (fun p => ⟨.fin p.1, .fin p.2⟩) := by
  induction ps with
  | nil => rfl
  | cons a l ih => simp [finHints, validHints] at ih ⊢; exact ih

/-- Every valid hint of a finite-hint list has finite coordinates. -/
theorem mem_finHints_valid (ps : List (ℚ × ℚ)) (p : JSPoint)
    (hp : p ∈ validHints (finHints ps)) : ∃ u v : ℚ, p = ⟨.fin u, .fin v⟩ := by
  rw [validHints_finHints] at hp
  obtain ⟨q, -, hq⟩ := List.mem_map.mp hp
  exact ⟨q.1, q.2, hq.symm⟩

/-- In-range integer indexing succeeds and returns a list element. -/
theorem jsIndex_some {α : Type} (l : List α) (k : ℤ) (h0 : 0 ≤ k)
    (h1 : k < (l.length : ℤ)) : ∃ a, jsIndex l k = some a ∧ a ∈ l := by
  have hnat : k.toNat < l.length := by omega
  exact ⟨l.get ⟨k.toNat, hnat⟩, by simp [jsIndex, h0, hnat], List.get_mem _ _ _⟩

theorem jsIndex_zero {α : Type} (a : α) (l : List α) : jsIndex (a :: l) 0 = some a := by
  simp [jsIndex]

theorem jsIndex_one {α : Type} (a b : α) (l : List α) : jsIndex (a :: b :: l) 1 = some b := by
  simp [jsIndex]

theorem jsIndex_last {α : Type} (l : List α) (hne : l ≠ []) :
    jsIndex l ((l.length : ℤ) - 1) = some (l.getLast hne) := by
  have hlen : 0 < l.length := List.length_pos.mpr hne
  have h0 : 0 ≤ (l.length : ℤ) - 1 := by omega
  have hnat : ((l.length : ℤ) - 1).toNat < l.length := by omega
  rw [jsIndex, dif_pos ⟨h0, hnat⟩]
  have ht : ((l.length : ℤ) - 1).toNat = l.length - 1 := by omega
  simp only [ht]
  rw [List.getLast_eq_getElem]
  rfl

/-- Bind-reduction for `Option` (used to unfold the spline pipelines). -/
theorem obind_some {α β : Type} (a : α) (f : α → Option β) : (some a >>= f) = f a := rfl

/-- For `t ≥ 0` (the upper segment index is already clamped by `min`),
segment selection succeeds and all four control points come from the
valid-hint list.  For `t < 0` the source indexes the array at -1 and
throws, so no such bound holds there. -/
theorem splineSegment_some (valid : List JSPoint) (t : ℚ) (h2 : 2 ≤ valid.length)
    (h0 : 0 ≤ t) :
    ∃ p0 p1 p2 p3 localT, splineSegment valid t = some (p0, p1, p2, p3, localT) ∧
      p0 ∈ valid ∧ p1 ∈ valid ∧ p2 ∈ valid ∧ p3 ∈ valid := by
  unfold splineSegment
  dsimp only
  set n : ℤ := (valid.length : ℤ) - 1 with hn
  set rI : ℚ := t * (n : ℚ) with hrI
  set i : ℤ := min ⌊rI⌋ (n - 1) with hi
  have hn1 : (1:ℤ) ≤ n := by omega
  have hlen : (valid.length : ℤ) = n + 1 := by omega
  have hnq : (0:ℚ) ≤ (n : ℚ) := by exact_mod_cast (by omega : (0:ℤ) ≤ n)
  have hrI0 : 0 ≤ rI := mul_nonneg h0 hnq
  have hfl : 0 ≤ ⌊rI⌋ := Int.floor_nonneg.mpr hrI0
  have hi0 : 0 ≤ i := le_min hfl (by omega)
  have hi1 : i ≤ n - 1 := min_le_right _ _
  have hb0 : max (i - 1) 0 ≤ n - 1 := max_le (by omega) (by omega)
  obtain ⟨p0, hp0, hm0⟩ := jsIndex_some valid (max (i - 1) 0) (le_max_right _ _) (by omega)
  obtain ⟨p1, hp1, hm1⟩ := jsIndex_some valid i hi0 (by omega)
  obtain ⟨p2, hp2, hm2⟩ := jsIndex_some valid (i + 1) (by omega) (by omega)
  have hb3a : 0 ≤ min (i + 2) n := le_min (by omega) (by omega)
  have hb3b : min (i + 2) n ≤ n := min_le_right _ _
  obtain ⟨p3, hp3, hm3⟩ := jsIndex_some valid (min (i + 2) n) hb3a (by omega)
  refine ⟨p0, p1, p2, p3, rI - (i : ℚ), ?_, hm0, hm1, hm2, hm3⟩
  rw [hp0, obind_some, hp1, obind_some, hp2, obind_some, hp3, obind_some]

/-- At `t = 0` the segment is the first one with local parameter 0:
`p0 = p1 = ` first hint, `p2 = ` second hint. -/
theorem splineSegment_zero (A B : JSPoint) (R : List JSPoint) :
    ∃ p3, splineSegment (A :: B :: R) 0 = some (A, A, B, p3, 0) ∧ p3 ∈ A :: B :: R := by
  unfold splineSegment
  dsimp only
  set n : ℤ := ((A :: B :: R).length : ℤ) - 1 with hn
  have hlen : ((A :: B :: R).length : ℤ) = (R.length : ℤ) + 2 := by
    simp [List.length_cons]
    omega
  have hn2 : n = (R.length : ℤ) + 1 := by omega
  rw [zero_mul, Int.floor_zero]
  have hmin : min (0:ℤ) (n - 1) = 0 := min_eq_left (by omega)
  rw [hmin]
  have hmax : max ((0:ℤ) - 1) 0 = 0 := by decide
  rw [hmax]
  have hb3a : (0:ℤ) ≤ min (2:ℤ) n := le_min (by omega) (by omega)
  have hb3b : min (2:ℤ) n < ((A :: B :: R).length : ℤ) := by
    have := min_le_right (2:ℤ) n
    omega
  obtain ⟨p3, hp3, hm3⟩ := jsIndex_some (A :: B :: R) (min (2:ℤ) n) hb3a hb3b
  refine ⟨p3, ?_, hm3⟩
  simp only [zero_add, jsIndex_zero, jsIndex_one, obind_some, Option.some_bind, hp3]
  norm_num

/-- At `t = 1` the segment is the last one with local parameter 1:
`p2 = p3 = ` last hint. -/
theorem splineSegment_one (A B : JSPoint) (R : List JSPoint) :
    ∃ p0 p1, splineSegment (A :: B :: R) 1 =
      some (p0, p1, (A :: B :: R).getLast (by simp), (A :: B :: R).getLast (by simp), 1) ∧
      p0 ∈ A :: B :: R ∧ p1 ∈ A :: B :: R := by
  unfold splineSegment
  dsimp only
  set n : ℤ := ((A :: B :: R).length : ℤ) - 1 with hn
  have hlen : ((A :: B :: R).length : ℤ) = (R.length : ℤ) + 2 := by
    simp [List.length_cons]
    omega
  have hn2 : n = (R.length : ℤ) + 1 := by omega
  rw [one_mul, Int.floor_intCast]
  have hmin : min n (n - 1) = n - 1 := min_eq_right (by omega)
  rw [hmin]
  obtain ⟨p0, hp0, hm0⟩ := jsIndex_some (A :: B :: R) (max (n - 1 - 1) 0)
    (le_max_right _ _)
    (by have := max_le (show n - 1 - 1 ≤ n by omega) (show (0:ℤ) ≤ n by omega); omega)
  obtain ⟨p1, hp1, hm1⟩ := jsIndex_some (A :: B :: R) (n - 1) (by omega) (by omega)
  have hlast : jsIndex (A :: B :: R) n = some ((A :: B :: R).getLast (by simp)) := by
    have := jsIndex_last (A :: B :: R) (by simp)
    rw [← hn] at this
    exact this
  have he2 : n - 1 + 1 = n := by ring
  have he3 : min (n - 1 + 2) n = n := min_eq_right (by omega)
  refine ⟨p0, p1, ?_, hm0, hm1⟩
  have hT : ((n : ℤ) : ℚ) - ((n - 1 : ℤ) : ℚ) = 1 := by push_cast; ring
  simp only [hp0, obind_some, Option.some_bind, hp1, he2, hlast, he3, hT]

/-- No valid hints: both revisions return the centre. -/
theorem gpop1_empty_valid (points : List RawHint) (t : ℚ) (hv : validHints points = []) :
    getPointOnPath1 points t = some centerPoint := by
  unfold getPointOnPath1
  split_ifs with h
  · rfl
  · rw [hv]

/-- A single valid hint is returned unchanged by the first revision. -/
theorem gpop1_single (points : List RawHint) (t : ℚ) (p : JSPoint)
    (hv : validHints points = [p]) : getPointOnPath1 points t = some ⟨p.x, p.y⟩ := by
  unfold getPointOnPath1
  split_ifs with h
  · exfalso
    rw [List.length_eq_zero.mp h] at hv
    simp [validHints] at hv
  · rw [hv]

/-- Evaluation of the first revision's multi-hint branch given a resolved
segment. -/
theorem gpop1_multi_eval (points : List RawHint) (t : ℚ) (q₁ q₂ : JSPoint)
    (rest : List JSPoint) (p0 p1 p2 p3 : JSPoint) (localT : ℚ)
    (hv : validHints points = q₁ :: q₂ :: rest)
    (hs : splineSegment (q₁ :: q₂ :: rest) t = some (p0, p1, p2, p3, localT)) :
    getPointOnPath1 points t =
      some ⟨if (calcCoord p0.x p1.x p2.x p3.x (.fin localT)).isNaN then .fin (1/2)
              else calcCoord p0.x p1.x p2.x p3.x (.fin localT),
            if (calcCoord p0.y p1.y p2.y p3.y (.fin localT)).isNaN then .fin (1/2)
              else calcCoord p0.y p1.y p2.y p3.y (.fin localT)⟩ := by
  have hne : ¬ points.length = 0 := by
    intro h
    rw [List.length_eq_zero.mp h] at hv
    simp [validHints] at hv
  unfold getPointOnPath1
  rw [if_neg hne, hv]
  dsimp only
  rw [hs]
  simp only [Option.some_bind, obind_some]

theorem gpop2_empty_valid (points : List RawHint) (t : ℚ) (hv : validHints points = []) :
    getPointOnPath2 points t = some centerPoint := by
  unfold getPointOnPath2
  split_ifs with h
  · rfl
  · rw [hv]

/-- A single valid hint is returned unchanged (in particular unclamped) by
the second revision. -/
theorem gpop2_single (points : List RawHint) (t : ℚ) (p : JSPoint)
    (hv : validHints points = [p]) : getPointOnPath2 points t = some ⟨p.x, p.y⟩ := by
  unfold getPointOnPath2
  split_ifs with h
  · exfalso
    rw [List.length_eq_zero.mp h] at hv
    simp [validHints] at hv
  · rw [hv]

/-- Evaluation of the second revision's multi-hint branch given a resolved
segment at the clamped parameter. -/
theorem gpop2_multi_eval (points : List RawHint) (t : ℚ) (q₁ q₂ : JSPoint)
    (rest : List JSPoint) (p0 p1 p2 p3 : JSPoint) (localT : ℚ)
    (hv : validHints points = q₁ :: q₂ :: rest)
    (hs : splineSegment (q₁ :: q₂ :: rest) (max 0 (min 1 t)) = some (p0, p1, p2, p3, localT)) :
    getPointOnPath2 points t =
      some ⟨jsClamp01 (if (calcCoord p0.x p1.x p2.x p3.x (.fin localT)).isNaN then .fin (1/2)
              else calcCoord p0.x p1.x p2.x p3.x (.fin localT)),
            jsClamp01 (if (calcCoord p0.y p1.y p2.y p3.y (.fin localT)).isNaN then .fin (1/2)
              else calcCoord p0.y p1.y p2.y p3.y (.fin localT))⟩ := by
  have hne : ¬ points.length = 0 := by
    intro h
    rw [List.length_eq_zero.mp h] at hv
    simp [validHints] at hv
  unfold getPointOnPath2
  rw [if_neg hne, hv]
  dsimp only
  rw [hs]
  simp only [Option.some_bind, obind_some]

/-- Both revisions evaluate to the first hint at `t = 0` on finite hints. -/
theorem gpop1_fin_zero (a b : ℚ × ℚ) (rest : List (ℚ × ℚ)) :
    getPointOnPath1 (finHints (a :: b :: rest)) 0 = some ⟨.fin a.1, .fin a.2⟩ := by
  have hv : validHints (finHints (a :: b :: rest)) =
      (⟨.fin a.1, .fin a.2⟩ : JSPoint) :: ⟨.fin b.1, .fin b.2⟩ ::
        rest.map (fun p => ⟨.fin p.1, .fin p.2⟩) := by
    rw [validHints_finHints]
    rfl
  obtain ⟨p3, hs, hm3⟩ := splineSegment_zero ⟨.fin a.1, .fin a.2⟩ ⟨.fin b.1, .fin b.2⟩
    (rest.map (fun p => ⟨.fin p.1, .fin p.2⟩))
  obtain ⟨u, v, hp3⟩ := mem_finHints_valid (a :: b :: rest) p3 (by rw [hv]; exact hm3)
  subst hp3
  rw [gpop1_multi_eval _ 0 _ _ _ _ _ _ _ _ hv hs]
  simp only [calcCoord_fin, calcCoordQ_zero, isNaN_fin, Bool.false_eq_true, if_false]

/-- The first revision evaluates to the last hint at `t = 1`. -/
theorem gpop1_fin_one (a b : ℚ × ℚ) (rest : List (ℚ × ℚ)) :
    getPointOnPath1 (finHints (a :: b :: rest)) 1 =
      some ⟨.fin ((a :: b :: rest).getLast (by simp)).1,
            .fin ((a :: b :: rest).getLast (by simp)).2⟩ := by
  have hv : validHints (finHints (a :: b :: rest)) =
      (⟨.fin a.1, .fin a.2⟩ : JSPoint) :: ⟨.fin b.1, .fin b.2⟩ ::
        rest.map (fun p => ⟨.fin p.1, .fin p.2⟩) := by
    rw [validHints_finHints]
    rfl
  obtain ⟨p0, p1, hs, hm0, hm1⟩ := splineSegment_one ⟨.fin a.1, .fin a.2⟩
    ⟨.fin b.1, .fin b.2⟩ (rest.map (fun p => ⟨.fin p.1, .fin p.2⟩))
  obtain ⟨u0, v0, hp0⟩ := mem_finHints_valid (a :: b :: rest) p0 (by rw [hv]; exact hm0)
  obtain ⟨u1, v1, hp1⟩ := mem_finHints_valid (a :: b :: rest) p1 (by rw [hv]; exact hm1)
  have hlast : ((⟨.fin a.1, .fin a.2⟩ : JSPoint) :: ⟨.fin b.1, .fin b.2⟩ ::
      rest.map (fun p => ⟨.fin p.1, .fin p.2⟩)).getLast (by simp) =
      ⟨.fin ((a :: b :: rest).getLast (by simp)).1,
       .fin ((a :: b :: rest).getLast (by simp)).2⟩ := by
    have := List.getLast_map (f := fun p : ℚ × ℚ => (⟨.fin p.1, .fin p.2⟩ : JSPoint))
      (l := a :: b :: rest) (by simp)
    simpa using this
  subst hp0
  subst hp1
  rw [gpop1_multi_eval _ 1 _ _ _ _ _ _ _ _ hv hs, hlast]
  simp only [calcCoord_fin, calcCoordQ_one, isNaN_fin, Bool.false_eq_true, if_false]

/-- The second revision evaluates to the first hint at `t = 0` when the
hints lie in the unit square (so the output clamp is the identity). -/
theorem gpop2_fin_zero (a b : ℚ × ℚ) (rest : List (ℚ × ℚ))
    (hrange : ∀ p ∈ a :: b :: rest, 0 ≤ p.1 ∧ p.1 ≤ 1 ∧ 0 ≤ p.2 ∧ p.2 ≤ 1) :
    getPointOnPath2 (finHints (a :: b :: rest)) 0 = some ⟨.fin a.1, .fin a.2⟩ := by
  have hv : validHints (finHints (a :: b :: rest)) =
      (⟨.fin a.1, .fin a.2⟩ : JSPoint) :: ⟨.fin b.1, .fin b.2⟩ ::
        rest.map (fun p => ⟨.fin p.1, .fin p.2⟩) := by
    rw [validHints_finHints]
    rfl
  obtain ⟨p3, hs, hm3⟩ := splineSegment_zero ⟨.fin a.1, .fin a.2⟩ ⟨.fin b.1, .fin b.2⟩
    (rest.map (fun p => ⟨.fin p.1, .fin p.2⟩))
  obtain ⟨u, v, hp3⟩ := mem_finHints_valid (a :: b :: rest) p3 (by rw [hv]; exact hm3)
  subst hp3
  have hs2 : splineSegment ((⟨.fin a.1, .fin a.2⟩ : JSPoint) :: ⟨.fin b.1, .fin b.2⟩ ::
      rest.map (fun p => ⟨.fin p.1, .fin p.2⟩)) (max 0 (min 1 (0:ℚ))) =
      some (⟨.fin a.1, .fin a.2⟩, ⟨.fin a.1, .fin a.2⟩, ⟨.fin b.1, .fin b.2⟩,
        ⟨.fin u, .fin v⟩, 0) := by
    rw [show max (0:ℚ) (min 1 0) = 0 by norm_num]
    exact hs
  rw [gpop2_multi_eval _ 0 _ _ _ _ _ _ _ _ hv hs2]
  obtain ⟨ha1, ha2, ha3, ha4⟩ := hrange a (by simp)
  simp only [calcCoord_fin, calcCoordQ_zero, isNaN_fin, Bool.false_eq_true, if_false,
    jsClamp01_of_mem a.1 ha1 ha2, jsClamp01_of_mem a.2 ha3 ha4]

/-- The second revision evaluates to the last hint at `t = 1` when the
hints lie in the unit square. -/
theorem gpop2_fin_one (a b : ℚ × ℚ) (rest : List (ℚ × ℚ))
    (hrange : ∀ p ∈ a :: b :: rest, 0 ≤ p.1 ∧ p.1 ≤ 1 ∧ 0 ≤ p.2 ∧ p.2 ≤ 1) :
    getPointOnPath2 (finHints (a :: b :: rest)) 1 =
      some ⟨.fin ((a :: b :: rest).getLast (by simp)).1,
            .fin ((a :: b :: rest).getLast (by simp)).2⟩ := by
  have hv : validHints (finHints (a :: b :: rest)) =
      (⟨.fin a.1, .fin a.2⟩ : JSPoint) :: ⟨.fin b.1, .fin b.2⟩ ::
        rest.map (fun p => ⟨.fin p.1, .fin p.2⟩) := by
    rw [validHints_finHints]
    rfl
  obtain ⟨p0, p1, hs, hm0, hm1⟩ := splineSegment_one ⟨.fin a.1, .fin a.2⟩
    ⟨.fin b.1, .fin b.2⟩ (rest.map (fun p => ⟨.fin p.1, .fin p.2⟩))
  obtain ⟨u0, v0, hp0⟩ := mem_finHints_valid (a :: b :: rest) p0 (by rw [hv]; exact hm0)
  obtain ⟨u1, v1, hp1⟩ := mem_finHints_valid (a :: b :: rest) p1 (by rw [hv]; exact hm1)
  have hlast : ((⟨.fin a.1, .fin a.2⟩ : JSPoint) :: ⟨.fin b.1, .fin b.2⟩ ::
      rest.map (fun p => ⟨.fin p.1, .fin p.2⟩)).getLast (by simp) =
      ⟨.fin ((a :: b :: rest).getLast (by simp)).1,
       .fin ((a :: b :: rest).getLast (by simp)).2⟩ := by
    have := List.getLast_map (f := fun p : ℚ × ℚ => (⟨.fin p.1, .fin p.2⟩ : JSPoint))
      (l := a :: b :: rest) (by simp)
    simpa using this
  subst hp0
  subst hp1
  have hs2 : splineSegment ((⟨.fin a.1, .fin a.2⟩ : JSPoint) :: ⟨.fin b.1, .fin b.2⟩ ::
      rest.map (fun p => ⟨.fin p.1, .fin p.2⟩)) (max 0 (min 1 (1:ℚ))) =
      some (⟨.fin u0, .fin v0⟩, ⟨.fin u1, .fin v1⟩,
        ((⟨.fin a.1, .fin a.2⟩ : JSPoint) :: ⟨.fin b.1, .fin b.2⟩ ::
          rest.map (fun p => ⟨.fin p.1, .fin p.2⟩)).getLast (by simp),
        ((⟨.fin a.1, .fin a.2⟩ : JSPoint) :: ⟨.fin b.1, .fin b.2⟩ ::
          rest.map (fun p => ⟨.fin p.1, .fin p.2⟩)).getLast (by simp), 1) := by
    rw [show max (0:ℚ) (min 1 1) = 1 by norm_num]
    exact hs
  rw [gpop2_multi_eval _ 1 _ _ _ _ _ _ _ _ hv hs2, hlast]
  obtain ⟨hl1, hl2, hl3, hl4⟩ :=
    hrange ((a :: b :: rest).getLast (by simp)) (List.getLast_mem _)
  simp only [calcCoord_fin, calcCoordQ_one, isNaN_fin, Bool.false_eq_true, if_false,
    jsClamp01_of_mem _ hl1 hl2, jsClamp01_of_mem _ hl3 hl4]

/-- Prepending an entry with a non-numeric coordinate never changes the
first revision's result: malformed hints are filtered out before
computation. -/
theorem gpop1_filter_invalid (p : RawHint) (hs : List RawHint) (t : ℚ)
    (hinv : p.x = none ∨ p.y = none) :
    getPointOnPath1 (p :: hs) t = getPointOnPath1 hs t := by
  have hv := validHints_cons_invalid p hs hinv
  unfold getPointOnPath1
  rw [if_neg (by simp : ¬((p :: hs).length = 0))]
  by_cases h2 : hs.length = 0
  · rw [if_pos h2]
    rw [List.length_eq_zero.mp h2] at hv ⊢
    rw [hv]
    rfl
  · rw [if_neg h2, hv]

/-- Prepending an entry with a non-numeric coordinate never changes the
second revision's result. -/
theorem gpop2_filter_invalid (p : RawHint) (hs : List RawHint) (t : ℚ)
    (hinv : p.x = none ∨ p.y = none) :
    getPointOnPath2 (p :: hs) t = getPointOnPath2 hs t := by
  have hv := validHints_cons_invalid p hs hinv
  unfold getPointOnPath2
  rw [if_neg (by simp : ¬((p :: hs).length = 0))]
  by_cases h2 : hs.length = 0
  · rw [if_pos h2]
    rw [List.length_eq_zero.mp h2] at hv ⊢
    rw [hv]
    rfl
  · rw [if_neg h2, hv]

/-- With at least two valid hints and `t ≥ 0` the first revision returns a
point whose coordinates are never NaN (the final isNaN replacement). -/
theorem gpop1_multi_sane (points : List RawHint) (t : ℚ)
    (h2 : 2 ≤ (validHints points).length) (h0 : 0 ≤ t) :
    ∃ r : JSPoint, getPointOnPath1 points t = some r ∧
      r.x.isNaN = false ∧ r.y.isNaN = false := by
  obtain ⟨q₁, tl, hv1⟩ := List.exists_cons_of_ne_nil
    (by intro h; rw [h] at h2; simp at h2 : validHints points ≠ [])
  obtain ⟨q₂, rest, hv2⟩ := List.exists_cons_of_ne_nil
    (by intro h; rw [hv1, h] at h2; simp at h2 : tl ≠ [])
  have hv : validHints points = q₁ :: q₂ :: rest := by rw [hv1, hv2]
  obtain ⟨p0, p1, p2, p3, localT, hs, -, -, -, -⟩ :=
    splineSegment_some (q₁ :: q₂ :: rest) t (by simp) h0
  exact ⟨_, gpop1_multi_eval points t q₁ q₂ rest p0 p1 p2 p3 localT hv hs,
    sanitize_not_nan _, sanitize_not_nan _⟩

/-- With at least two valid hints the second revision always returns, with
both coordinates finite rationals inside `[0,1]` — for every `t` and for
arbitrary (even NaN or infinite) valid hint coordinates. -/
theorem gpop2_multi_bounds (points : List RawHint) (t : ℚ)
    (h2 : 2 ≤ (validHints points).length) :
    ∃ (r : JSPoint) (qx qy : ℚ), getPointOnPath2 points t = some r ∧
      r.x = .fin qx ∧ r.y = .fin qy ∧ 0 ≤ qx ∧ qx ≤ 1 ∧ 0 ≤ qy ∧ qy ≤ 1 := by
  obtain ⟨q₁, tl, hv1⟩ := List.exists_cons_of_ne_nil
    (by intro h; rw [h] at h2; simp at h2 : validHints points ≠ [])
  obtain ⟨q₂, rest, hv2⟩ := List.exists_cons_of_ne_nil
    (by intro h; rw [hv1, h] at h2; simp at h2 : tl ≠ [])
  have hv : validHints points = q₁ :: q₂ :: rest := by rw [hv1, hv2]
  obtain ⟨p0, p1, p2, p3, localT, hs, -, -, -, -⟩ :=
    splineSegment_some (q₁ :: q₂ :: rest) (max 0 (min 1 t)) (by simp) (le_max_left 0 _)
  obtain ⟨qx, hqx, hqx0, hqx1⟩ :=
    sanitize_clamp_bounds (calcCoord p0.x p1.x p2.x p3.x (.fin localT))
  obtain ⟨qy, hqy, hqy0, hqy1⟩ :=
    sanitize_clamp_bounds (calcCoord p0.y p1.y p2.y p3.y (.fin localT))
  exact ⟨_, qx, qy, gpop2_multi_eval points t q₁ q₂ rest p0 p1 p2 p3 localT hv hs,
    hqx, hqy, hqx0, hqx1, hqy0, hqy1⟩

/-- C4: for every progress value `t`, both revisions of `getPointOnPath`
return the centre (0.5, 0.5) on an empty hint list and on any list with
no valid numeric entries, and return exactly the hint on a single-hint
list, independent of `t`. -/
theorem C4_empty_and_single_hint :
    (∀ t : ℚ, getPointOnPath1 [] t = some centerPoint ∧
      getPointOnPath2 [] t = some centerPoint) ∧
    (∀ (points : List RawHint) (t : ℚ), validHints points = [] →
      getPointOnPath1 points t = some centerPoint ∧
      getPointOnPath2 points t = some centerPoint) ∧
    (∀ (a b : JSNum) (t : ℚ),
      getPointOnPath1 [⟨some a, some b⟩] t = some ⟨a, b⟩ ∧
      getPointOnPath2 [⟨some a, some b⟩] t = some ⟨a, b⟩) :=
  ⟨fun t => ⟨gpop1_empty_valid [] t rfl, gpop2_empty_valid [] t rfl⟩,
   fun points t hv => ⟨gpop1_empty_valid points t hv, gpop2_empty_valid points t hv⟩,
   fun a b t => ⟨gpop1_single [⟨some a, some b⟩] t ⟨a, b⟩ rfl,
     gpop2_single [⟨some a, some b⟩] t ⟨a, b⟩ rfl⟩⟩

/-- C4 witness: a list whose only entry lacks a numeric x resolves to the
centre at t = 7; a single numeric hint (0.3, 0.4) is returned exactly. -/
theorem C4_empty_and_single_hint_witness :
    (validHints [RawHint.mk none (some (.fin 1))] = [] ∧
      getPointOnPath1 [RawHint.mk none (some (.fin 1))] 7 = some centerPoint ∧
      getPointOnPath2 [RawHint.mk none (some (.fin 1))] 7 = some centerPoint) ∧
    (getPointOnPath1 [⟨some (.fin (3/10)), some (.fin (2/5))⟩] 7 =
        some ⟨.fin (3/10), .fin (2/5)⟩ ∧
      getPointOnPath2 [⟨some (.fin (3/10)), some (.fin (2/5))⟩] 7 =
        some ⟨.fin (3/10), .fin (2/5)⟩) :=
  ⟨⟨rfl, C4_empty_and_single_hint.2.1 [RawHint.mk none (some (.fin 1))] 7 rfl⟩,
    C4_empty_and_single_hint.2.2 (.fin (3/10)) (.fin (2/5)) 7⟩

/-- C5: for every finite hint list with at least two entries, the
Catmull-Rom evaluation of the first revision at t = 0 is exactly the
first hint and at t = 1 exactly the last hint; the clamped second
revision agrees whenever the hints lie in the unit square (its output
clamp is then the identity).  Exact equality implies the claim's
"approximately". -/
theorem C5_spline_boundary_endpoints :
    ∀ (a b : ℚ × ℚ) (rest : List (ℚ × ℚ)),
    getPointOnPath1 (finHints (a :: b :: rest)) 0 = some ⟨.fin a.1, .fin a.2⟩ ∧
    getPointOnPath1 (finHints (a :: b :: rest)) 1 =
      some ⟨.fin ((a :: b :: rest).getLast (by simp)).1,
            .fin ((a :: b :: rest).getLast (by simp)).2⟩ ∧
    ((∀ p ∈ a :: b :: rest, 0 ≤ p.1 ∧ p.1 ≤ 1 ∧ 0 ≤ p.2 ∧ p.2 ≤ 1) →
      getPointOnPath2 (finHints (a :: b :: rest)) 0 = some ⟨.fin a.1, .fin a.2⟩ ∧
      getPointOnPath2 (finHints (a :: b :: rest)) 1 =
        some ⟨.fin ((a :: b :: rest).getLast (by simp)).1,
              .fin ((a :: b :: rest).getLast (by simp)).2⟩) :=
  fun a b rest =>
    ⟨gpop1_fin_zero a b rest, gpop1_fin_one a b rest,
     fun hr => ⟨gpop2_fin_zero a b rest hr, gpop2_fin_one a b rest hr⟩⟩

/-- C5 witness: the spec's scenario hints (0.1, 0.1), (0.9, 0.9): both
revisions return the first hint at t = 0 and the last at t = 1. -/
theorem C5_spline_boundary_endpoints_witness :
    (∀ p ∈ [((1:ℚ)/10, (1:ℚ)/10), ((9:ℚ)/10, (9:ℚ)/10)],
      0 ≤ p.1 ∧ p.1 ≤ 1 ∧ 0 ≤ p.2 ∧ p.2 ≤ 1) ∧
    (getPointOnPath2 (finHints (((1:ℚ)/10, (1:ℚ)/10) :: ((9:ℚ)/10, (9:ℚ)/10) :: [])) 0 =
        some ⟨.fin (1/10), .fin (1/10)⟩ ∧
      getPointOnPath2 (finHints (((1:ℚ)/10, (1:ℚ)/10) :: ((9:ℚ)/10, (9:ℚ)/10) :: [])) 1 =
        some ⟨.fin ((((1:ℚ)/10, (1:ℚ)/10) :: ((9:ℚ)/10, (9:ℚ)/10) :: []).getLast (by simp)).1,
              .fin ((((1:ℚ)/10, (1:ℚ)/10) :: ((9:ℚ)/10, (9:ℚ)/10) :: []).getLast (by simp)).2⟩) := by
  have hr : ∀ p ∈ [((1:ℚ)/10, (1:ℚ)/10), ((9:ℚ)/10, (9:ℚ)/10)],
      0 ≤ p.1 ∧ p.1 ≤ 1 ∧ 0 ≤ p.2 ∧ p.2 ≤ 1 := by
    intro p hp
    simp only [List.mem_cons, List.not_mem_nil, or_false] at hp
    rcases hp with h | h <;> subst h <;> norm_num
  exact ⟨hr, (C5_spline_boundary_endpoints ((1:ℚ)/10, (1:ℚ)/10) ((9:ℚ)/10, (9:ℚ)/10) []).2.2 hr⟩

/-- C7 counterexample: NaN is of `typeof 'number'`, so a hint with a NaN
coordinate passes the malformed-entry filter, and the single-valid-hint
branch of both revisions returns it unchanged: the returned x IS NaN,
refuting "the returned x and y are never NaN". -/
theorem C7_nan_counterexample :
    getPointOnPath1 [⟨some .nan, some (.fin 0)⟩] 0 = some ⟨.nan, .fin 0⟩ ∧
    getPointOnPath2 [⟨some .nan, some (.fin 0)⟩] 0 = some ⟨.nan, .fin 0⟩ ∧
    JSNum.nan.isNaN = true :=
  ⟨gpop1_single [⟨some .nan, some (.fin 0)⟩] 0 ⟨.nan, .fin 0⟩ rfl,
   gpop2_single [⟨some .nan, some (.fin 0)⟩] 0 ⟨.nan, .fin 0⟩ rfl, rfl⟩

/-- C7 (amended): entries with non-numeric x or y are filtered out before
computation (prepending one never changes the result); in the multi-hint
branch any NaN produced by the curve math is replaced by 0.5 (and clamped
in the second revision), so with at least two valid hints the returned
coordinates are never NaN — for the first revision whenever `t ≥ 0`
(for `t < 0` it throws on an out-of-range index), for the second for
every `t`.  However NaN and Infinity are themselves numeric values that
pass the filter, and a single valid hint is returned unchanged, so in the
single-hint case the returned coordinate can be NaN or infinite. -/
theorem C7_nan_sanitization :
    (∀ (p : RawHint) (hs : List RawHint) (t : ℚ), p.x = none ∨ p.y = none →
      getPointOnPath1 (p :: hs) t = getPointOnPath1 hs t ∧
      getPointOnPath2 (p :: hs) t = getPointOnPath2 hs t) ∧
    (∀ (points : List RawHint) (t : ℚ), 2 ≤ (validHints points).length → 0 ≤ t →
      ∃ r : JSPoint, getPointOnPath1 points t = some r ∧
        r.x.isNaN = false ∧ r.y.isNaN = false) ∧
    (∀ (points : List RawHint) (t : ℚ), 2 ≤ (validHints points).length →
      ∃ r : JSPoint, getPointOnPath2 points t = some r ∧
        r.x.isNaN = false ∧ r.y.isNaN = false) ∧
    (∀ (a b : JSNum) (t : ℚ),
      getPointOnPath1 [⟨some a, some b⟩] t = some ⟨a, b⟩ ∧
      getPointOnPath2 [⟨some a, some b⟩] t = some ⟨a, b⟩) := by
  refine ⟨fun p hs t hinv => ⟨gpop1_filter_invalid p hs t hinv,
      gpop2_filter_invalid p hs t hinv⟩,
    gpop1_multi_sane, ?_,
    fun a b t => ⟨gpop1_single [⟨some a, some b⟩] t ⟨a, b⟩ rfl,
      gpop2_single [⟨some a, some b⟩] t ⟨a, b⟩ rfl⟩⟩
  intro points t h2
  obtain ⟨r, qx, qy, hr, hx, hy, -, -, -, -⟩ := gpop2_multi_bounds points t h2
  refine ⟨r, hr, ?_, ?_⟩
  · rw [hx]; rfl
  · rw [hy]; rfl

/-- C7 witness: two finite hints (0, 0), (1, 1) at t = 1/2: the first
revision returns a point with non-NaN coordinates. -/
theorem C7_nan_sanitization_witness :
    (2 ≤ (validHints (finHints [((0:ℚ), (0:ℚ)), ((1:ℚ), (1:ℚ))])).length) ∧
    ∃ r : JSPoint, getPointOnPath1 (finHints [((0:ℚ), (0:ℚ)), ((1:ℚ), (1:ℚ))]) (1/2) =
      some r ∧ r.x.isNaN = false ∧ r.y.isNaN = false := by
  have h2 : 2 ≤ (validHints (finHints [((0:ℚ), (0:ℚ)), ((1:ℚ), (1:ℚ))])).length := by
    rw [validHints_finHints]
    simp
  exact ⟨h2, C7_nan_sanitization.2.1 _ (1/2) h2 (by norm_num)⟩

/-- C10: with at least two valid hints, the heading-bearing revision
clamps both returned coordinates into `[0,1]` for every `t` (even outside
`[0,1]`) and arbitrary hint values (even outside the unit square, NaN or
infinite); but a single valid hint is returned unclamped, so one
out-of-range hint propagates an out-of-range position to the caller. -/
theorem C10_output_clamping :
    (∀ (points : List RawHint) (t : ℚ), 2 ≤ (validHints points).length →
      ∃ (r : JSPoint) (qx qy : ℚ), getPointOnPath2 points t = some r ∧
        r.x = .fin qx ∧ r.y = .fin qy ∧ 0 ≤ qx ∧ qx ≤ 1 ∧ 0 ≤ qy ∧ qy ≤ 1) ∧
    (∀ (a b : JSNum) (t : ℚ), getPointOnPath2 [⟨some a, some b⟩] t = some ⟨a, b⟩) :=
  ⟨gpop2_multi_bounds, fun a b t => gpop2_single [⟨some a, some b⟩] t ⟨a, b⟩ rfl⟩

/-- C10 witness: hints (2, 3), (5, 7) far outside the unit square at
t = 5 outside `[0,1]`: the returned coordinates are still clamped into
`[0,1]`. -/
theorem C10_output_clamping_witness :
    (2 ≤ (validHints (finHints [((2:ℚ), (3:ℚ)), ((5:ℚ), (7:ℚ))])).length) ∧
    ∃ (r : JSPoint) (qx qy : ℚ),
      getPointOnPath2 (finHints [((2:ℚ), (3:ℚ)), ((5:ℚ), (7:ℚ))]) 5 = some r ∧
      r.x = .fin qx ∧ r.y = .fin qy ∧ 0 ≤ qx ∧ qx ≤ 1 ∧ 0 ≤ qy ∧ qy ≤ 1 := by
  have h2 : 2 ≤ (validHints (finHints [((2:ℚ), (3:ℚ)), ((5:ℚ), (7:ℚ))])).length := by
    rw [validHints_finHints]
    simp
  exact ⟨h2, C10_output_clamping.1 _ 5 h2⟩
